import Mathlib

/-!
Verification development for the two-service financial ledger
(`ilia-nodejs-challenge`): a shallow embedding of the Ledger service's
transactional write path (`transactions.repository.ts`,
`transactions.service.ts`), its retry loop, the auth guard of the Ledger
(`auth.service.ts` / `jwt.strategy.ts`) and the Identity service's user
operations (`users.service.ts`), together with proofs of the specified
invariants.

The database is modelled as explicit lists of rows; a committed execution
of the write protocol is a pure state transformer; errors thrown inside
the ORM `$transaction` closure abort it, which the embedding renders as
`Except`: an error leaves the caller's state untouched.
-/

namespace Ledger

/-- `type ∈ {CREDIT, DEBIT}` — the enum of `create-transaction.dto.ts`. -/
inductive TransactionType
  | CREDIT
  | DEBIT
deriving DecidableEq, Repr

/-- The response envelope `{id, user_id, amount, type}` that
`finalizeIdempotency` serializes and the service returns. Row ids are
modelled as the `Nat` draw of a fresh-id counter. -/
structure ResponseEnvelope where
  id : Nat
  user_id : String
  amount : Int
  type : TransactionType
deriving DecidableEq, Repr

/-- The `response` column of `idempotency_keys`: either the sentinel
`__PENDING__` or the JSON serialization of a response envelope.
`JSON.stringify` is modelled by the `envelope` constructor; the sentinel
is not valid JSON, so `JSON.parse` succeeds exactly on `envelope`. -/
inductive StoredResponse
  | pending
  | envelope (e : ResponseEnvelope)
deriving DecidableEq, Repr

/-- `JSON.parse` applied to the stored `response` string: parsing the
`__PENDING__` sentinel throws (it is not valid JSON). -/
def parseStored : StoredResponse → Option ResponseEnvelope
  | .pending => none
  | .envelope e => some e

/-- A row of the `transactions` table (append-only ledger). -/
structure TxRow where
  id : Nat
  userId : String
  type : TransactionType
  amount : Int
  idempotencyKey : Option String
deriving DecidableEq, Repr

/-- A row of the `accounts` table (`user_id` is UNIQUE). -/
structure AccountRow where
  userId : String
  balance : Int
  version : Int
deriving DecidableEq, Repr

/-- A row of the `idempotency_keys` table (`key` is UNIQUE). Timestamps
are integers (epoch milliseconds). -/
structure IdemRow where
  key : String
  response : StoredResponse
  expiresAt : Int
deriving DecidableEq, Repr

/-- The Ledger service's database state, plus a fresh-id counter that
models the generation of unique row ids. -/
structure LedgerState where
  transactions : List TxRow
  accounts : List AccountRow
  idemKeys : List IdemRow
  nextId : Nat
deriving DecidableEq, Repr

/-- The empty database. -/
def initialState : LedgerState := ⟨[], [], [], 0⟩

/-- The errors thrown inside the `$transaction` closure:
`IDEMPOTENCY_DUPLICATE` and `INSUFFICIENT_BALANCE` from the repository
code, plus the Prisma errors raised by the database itself: `P2002`
(unique key violation, from `idempotencyKey.create` on an existing key)
and `P2025` (record to update not found, from `idempotencyKey.update`). -/
inductive TxError
  | idempotencyDuplicate (cachedResponse : StoredResponse)
  | insufficientBalance
  | uniqueKeyViolation
  | recordNotFound
deriving DecidableEq, Repr

/-- `new Date()` plus 90 days, as used by `checkIdempotency`
(`setDate(getDate() + 90)`), in milliseconds. -/
def ninetyDaysMs : Int := 90 * 24 * 60 * 60 * 1000

/-- `new Date()` plus 24 hours, as used by `finalizeIdempotency`
(`setHours(getHours() + 24)`), in milliseconds. -/
def twentyFourHoursMs : Int := 24 * 60 * 60 * 1000

/-- `tx.idempotencyKey.findUnique({ where: { key } })`. -/
def findIdem (idem : List IdemRow) (k : String) : Option IdemRow :=
  idem.find? (fun r => r.key == k)

/-- `tx.idempotencyKey.create`: the database enforces the UNIQUE
constraint on `key`, raising P2002 when a row with that key exists. -/
def idemCreate (idem : List IdemRow) (row : IdemRow) :
    Except TxError (List IdemRow) :=
  if idem.any (fun r => r.key == row.key) then .error .uniqueKeyViolation
  else .ok (idem ++ [row])

/-- The row transformation of `tx.idempotencyKey.update({ where: { key } })`:
the matching row gets the new `response` and `expiresAt`. -/
def updIdem (k : String) (resp : StoredResponse) (exp : Int) (r : IdemRow) : IdemRow :=
  if r.key == k then ⟨r.key, resp, exp⟩ else r

/-- `tx.idempotencyKey.update`: raises P2025 when no row has the key. -/
def idemUpdate (idem : List IdemRow) (k : String) (resp : StoredResponse)
    (exp : Int) : Except TxError (List IdemRow) :=
  if idem.any (fun r => r.key == k) then .ok (idem.map (updIdem k resp exp))
  else .error .recordNotFound

/-- `checkIdempotency` (transactions.repository.ts lines 75-102): with no
key it returns at once; otherwise it looks the key up, throws
`IDEMPOTENCY_DUPLICATE` carrying the stored `response` whenever a record
exists with `expiresAt > now` — whatever that response is — and
otherwise inserts a `__PENDING__` reservation expiring in 90 days (which
hits the unique constraint when an expired record still occupies the key). -/
def checkIdempotency (idem : List IdemRow) (now : Int)
    (idempotencyKey : Option String) : Except TxError (List IdemRow) :=
  match idempotencyKey with
  | none => .ok idem
  | some k =>
    match findIdem idem k with
    | some existing =>
      if existing.expiresAt > now then
        .error (.idempotencyDuplicate existing.response)
      else
        idemCreate idem ⟨k, .pending, now + ninetyDaysMs⟩
    | none => idemCreate idem ⟨k, .pending, now + ninetyDaysMs⟩

/-- `readCurrentAccount` (lines 108-121): reads `(balance, version)` for
the user, defaulting to `(0, 0)` when no account row exists. -/
def readCurrentAccount (accounts : List AccountRow) (userId : String) : Int × Int :=
  match accounts.find? (fun a => a.userId == userId) with
  | some a => (a.balance, a.version)
  | none => (0, 0)

/-- `calculateNewBalance` (lines 127-145): `balance + amount` for CREDIT,
`balance - amount` for DEBIT; throws `INSUFFICIENT_BALANCE` when the
result would be negative. -/
def calculateNewBalance (currentBalance : Int) (type : TransactionType)
    (amount : Int) : Except TxError Int :=
  let newBalance :=
    match type with
    | .CREDIT => currentBalance + amount
    | .DEBIT => currentBalance - amount
  if newBalance < 0 then .error .insufficientBalance else .ok newBalance

/-- The proposed balance of step 4 of the protocol: `balance + amount`
for CREDIT, `balance - amount` for DEBIT. -/
def proposedBalance (currentBalance : Int) (type : TransactionType) (amount : Int) : Int :=
  match type with
  | .CREDIT => currentBalance + amount
  | .DEBIT => currentBalance - amount

/-- The row transformation of the upsert's `update` branch:
`{ balance: newBalance, version: currentVersion + 1 }` on the matching row. -/
def updAccount (u : String) (newBalance currentVersion : Int) (a : AccountRow) : AccountRow :=
  if a.userId == u then ⟨a.userId, newBalance, currentVersion + 1⟩ else a

/-- `processAccount` (lines 150-168): a single `account.upsert` keyed on
`userId` — create `{userId, balance: newBalance, version: 1}` when no row
exists, else update to `{balance: newBalance, version: currentVersion + 1}`. -/
def processAccount (accounts : List AccountRow) (userId : String)
    (newBalance currentVersion : Int) : List AccountRow :=
  if accounts.any (fun a => a.userId == userId) then
    accounts.map (updAccount userId newBalance currentVersion)
  else
    accounts ++ [⟨userId, newBalance, 1⟩]

/-- `finalizeIdempotency` (lines 175-198): no-op without a key, otherwise
updates the reserved record to the serialized `{id, user_id, amount, type}`
envelope with a 24-hour TTL. -/
def finalizeIdempotency (idem : List IdemRow) (now : Int)
    (idempotencyKey : Option String) (t : TxRow) : Except TxError (List IdemRow) :=
  match idempotencyKey with
  | none => .ok idem
  | some k =>
    idemUpdate idem k (.envelope ⟨t.id, t.userId, t.amount, t.type⟩)
      (now + twentyFourHoursMs)

/-- The `CreateTransactionParams` interface. -/
structure CreateTransactionParams where
  userId : String
  type : TransactionType
  amount : Int
  idempotencyKey : Option String
deriving DecidableEq, Repr

/-- The `TransactionResult` DTO (the `createdAt` column plays no role in
any claim and is omitted). -/
structure TransactionResult where
  id : Nat
  userId : String
  type : TransactionType
  amount : Int
deriving DecidableEq, Repr

/-- `mapToResult` (lines 203-217). -/
def mapToResult (t : TxRow) : TransactionResult := ⟨t.id, t.userId, t.type, t.amount⟩

/-- `createTransactionWithLock` (lines 33-64): one committed execution of
the write protocol inside a Serializable `$transaction` —
idempotency probe, snapshot read, balance validation, ledger append,
snapshot upsert, idempotency finalization. An error anywhere aborts the
DB transaction: the embedding returns the error and no new state. -/
def createTransactionWithLock (s : LedgerState) (now : Int)
    (p : CreateTransactionParams) : Except TxError (TransactionResult × LedgerState) :=
  match checkIdempotency s.idemKeys now p.idempotencyKey with
  | .error e => .error e
  | .ok idem1 =>
    let current := readCurrentAccount s.accounts p.userId
    match calculateNewBalance current.1 p.type p.amount with
    | .error e => .error e
    | .ok newBalance =>
      let txRow : TxRow := ⟨s.nextId, p.userId, p.type, p.amount, p.idempotencyKey⟩
      match finalizeIdempotency idem1 now p.idempotencyKey txRow with
      | .error e => .error e
      | .ok idem2 =>
        .ok (mapToResult txRow,
          { transactions := s.transactions ++ [txRow]
            accounts := processAccount s.accounts p.userId newBalance current.2
            idemKeys := idem2
            nextId := s.nextId + 1 })

/-- The committed-state evolution: a successful protocol run commits its
new state, an aborted one leaves the database as it was. -/
def stepState (s : LedgerState) (now : Int) (p : CreateTransactionParams) : LedgerState :=
  match createTransactionWithLock s now p with
  | .ok r => r.2
  | .error _ => s

/-- A sequence of committed write-protocol executions from the empty
database; each element carries its wall-clock time and parameters. -/
def execAll (ops : List (Int × CreateTransactionParams)) : LedgerState :=
  ops.foldl (fun s op => stepState s op.1 op.2) initialState

/-- The sum of CREDIT amounts of a user's rows in the transaction log. -/
def creditsOf (l : List TxRow) (u : String) : Int :=
  ((l.filter fun t => t.userId == u && t.type == TransactionType.CREDIT).map TxRow.amount).sum

/-- The sum of DEBIT amounts of a user's rows in the transaction log. -/
def debitsOf (l : List TxRow) (u : String) : Int :=
  ((l.filter fun t => t.userId == u && t.type == TransactionType.DEBIT).map TxRow.amount).sum

/-- `Σ CREDIT.amount − Σ DEBIT.amount` over a user's transactions. -/
def ledgerBalance (s : LedgerState) (u : String) : Int :=
  creditsOf s.transactions u - debitsOf s.transactions u

/-- `account.findUnique({ where: { userId } })`. -/
def findAccount (s : LedgerState) (u : String) : Option AccountRow :=
  s.accounts.find? (fun a => a.userId == u)

/-- The balance recorded in an accounts table, `0` when no row exists. -/
def balanceOf (acc : List AccountRow) (u : String) : Int :=
  match acc.find? (fun a => a.userId == u) with
  | some a => a.balance
  | none => 0

/-- The version recorded in an accounts table, `0` when no row exists. -/
def versionOf (acc : List AccountRow) (u : String) : Int :=
  match acc.find? (fun a => a.userId == u) with
  | some a => a.version
  | none => 0

/-- The Account snapshot's balance, `0` when no row exists. -/
def accountBalance (s : LedgerState) (u : String) : Int :=
  balanceOf s.accounts u

/-- The Account snapshot's version, `0` when no row exists. -/
def accountVersion (s : LedgerState) (u : String) : Int :=
  versionOf s.accounts u

/-- `getBalance` (lines 297-324): fast path reads the Account snapshot;
with no snapshot it computes `sum(CREDIT) - sum(DEBIT)` from the log. -/
def getBalance (s : LedgerState) (u : String) : Int :=
  match findAccount s u with
  | some a => a.balance
  | none => creditsOf s.transactions u - debitsOf s.transactions u

/-! ### The application-level retry loop

`createTransactionWithRetry` (lines 229-254) retries the entire DB
transaction on serialization failures. Whether an attempt fails, and with
which driver error, depends on the concurrent environment, so the loop is
modelled over an abstract attempt function `run : Nat → Except JsError α`
giving the outcome of each attempt, and an abstract `rand : Nat → ℚ`
giving the `Math.random()` draw (a value in `[0, 1)`) used for the jitter
of each attempt's backoff. The model also returns the list of backoff
sleeps performed, in order. -/

/-- The shape of a caught JavaScript error as the retry loop inspects it:
its optional Prisma `code` and its `message`. -/
structure JsError where
  code : Option String
  message : String
deriving DecidableEq, Repr

/-- Whether the pattern occurs as a prefix of the character list. -/
def charsStartWith : List Char → List Char → Bool
  | _, [] => true
  | [], _ :: _ => false
  | c :: cs, d :: ds => c == d && charsStartWith cs ds

/-- Whether the pattern occurs as a contiguous sublist. -/
def charsContain : List Char → List Char → Bool
  | [], pat => pat.isEmpty
  | c :: rest, pat => charsStartWith (c :: rest) pat || charsContain rest pat

/-- `String.prototype.includes`. -/
def containsSubstr (s pat : String) : Bool := charsContain s.data pat.data

/-- `PRISMA_SERIALIZATION_ERROR_CODE` (line 7). -/
def prismaSerializationErrorCode : String := "P2034"

/-- The retry loop's classifier (lines 237-239):
`error?.code === 'P2034' || error?.message?.includes('could not serialize access')`. -/
def isSerializationFailure (e : JsError) : Bool :=
  e.code == some prismaSerializationErrorCode ||
    containsSubstr e.message "could not serialize access"

/-- `computeBackoffMs` (lines 263-267): `2^(attempt-1) * 100` plus
`Math.random() * 50`, where `rand` is the random draw in `[0, 1)`. -/
def computeBackoffMs (attempt : Nat) (rand : ℚ) : ℚ :=
  2 ^ (attempt - 1) * 100 + rand * 50

/-- The error thrown by the line after the loop, reachable only if the
loop exits without returning or throwing. -/
def unreachableLoopError : JsError :=
  ⟨none, "Unreachable: retry loop exhausted without throw"⟩

/-- The body of `createTransactionWithRetry`'s `for` loop, with explicit
fuel (`maxAttempts - attempt + 1` iterations remain). Returns the final
outcome and the list of backoff sleeps taken. -/
def retryLoop {α : Type} (run : Nat → Except JsError α) (rand : Nat → ℚ)
    (maxAttempts : Nat) : Nat → Nat → Except JsError α × List ℚ
  | _, 0 => (.error unreachableLoopError, [])
  | attempt, fuel + 1 =>
    match run attempt with
    | .ok v => (.ok v, [])
    | .error e =>
      if isSerializationFailure e && decide (attempt < maxAttempts) then
        let rest := retryLoop run rand maxAttempts (attempt + 1) fuel
        (rest.1, computeBackoffMs attempt (rand attempt) :: rest.2)
      else (.error e, [])

/-- `createTransactionWithRetry` (lines 229-254): run attempts
`1..maxAttempts`, sleeping `computeBackoffMs attempt` then continuing
whenever the caught error is a serialization failure and attempts remain,
and rethrowing any other error at once. -/
def createTransactionWithRetry {α : Type} (run : Nat → Except JsError α)
    (rand : Nat → ℚ) (maxAttempts : Nat) : Except JsError α × List ℚ :=
  retryLoop run rand maxAttempts 1 maxAttempts

/-- The default `maxAttempts = 10` of `createTransactionWithRetry`. -/
def defaultMaxAttempts : Nat := 10

/-- The JavaScript error object corresponding to each thrown `TxError`,
as the retry classifier sees it: the repository's own errors carry no
Prisma code; the database errors carry theirs. -/
def txErrorToJs : TxError → JsError
  | .idempotencyDuplicate _ => ⟨none, "IDEMPOTENCY_DUPLICATE"⟩
  | .insufficientBalance => ⟨none, "INSUFFICIENT_BALANCE"⟩
  | .uniqueKeyViolation => ⟨some "P2002", "Unique constraint failed"⟩
  | .recordNotFound => ⟨some "P2025", "Record to update not found"⟩

/-! ### The service layer

`TransactionsService.createTransaction` (transactions.service.ts):
validates the amount, runs the repository write, converts
`IDEMPOTENCY_DUPLICATE` into a success response by `JSON.parse`-ing the
cached string, converts `INSUFFICIENT_BALANCE` into the 400 exception
payload (re-reading the balance), and rethrows anything else. The
controller maps a normal return to HTTP 200 (`@HttpCode(HttpStatus.OK)`). -/

/-- `CreateTransactionDto`: `{amount, type}`. -/
structure CreateTransactionDto where
  amount : Int
  type : TransactionType
deriving DecidableEq, Repr

/-- The observable outcome of `POST /transactions` at the service
boundary. `jsonParseError` is the `SyntaxError` thrown by `JSON.parse`
on a cached response that is not valid JSON (the `__PENDING__` sentinel). -/
inductive ServiceOutcome
  | success (e : ResponseEnvelope)
  | invalidAmount (amount : Int)
  | insufficientBalance (userId : String) (currentBalance requestedAmount shortage : Int)
  | jsonParseError
  | rethrown (e : TxError)
deriving DecidableEq, Repr

/-- The HTTP status each outcome surfaces with: 200 for a success or a
replayed duplicate, 400 for `InvalidAmountException` and
`InsufficientBalanceException`, 500 for anything else. -/
def httpStatus : ServiceOutcome → Nat
  | .success _ => 200
  | .invalidAmount _ => 400
  | .insufficientBalance _ _ _ _ => 400
  | .jsonParseError => 500
  | .rethrown _ => 500

/-- `TransactionsService.createTransaction` (transactions.service.ts
lines 27-85). In this sequential model the database raises no
serialization failures, and no `TxError` is classified as one
(`txError_not_serialization` below), so the retry wrapper runs the
single attempt `createTransactionWithLock` and returns its outcome. -/
def serviceCreateTransaction (s : LedgerState) (now : Int)
    (dto : CreateTransactionDto) (userId : String)
    (idempotencyKey : Option String) : ServiceOutcome × LedgerState :=
  if dto.amount ≤ 0 then (.invalidAmount dto.amount, s)
  else
    match createTransactionWithLock s now ⟨userId, dto.type, dto.amount, idempotencyKey⟩ with
    | .ok (r, s') => (.success ⟨r.id, r.userId, r.amount, r.type⟩, s')
    | .error (.idempotencyDuplicate cached) =>
      match parseStored cached with
      | some e => (.success e, s)
      | none => (.jsonParseError, s)
    | .error .insufficientBalance =>
      let currentBalance := getBalance s userId
      (.insufficientBalance userId currentBalance dto.amount (dto.amount - currentBalance), s)
    | .error e => (.rethrown e, s)

/-- The invariant of committed Ledger states: non-negative snapshots
consistent with the log, version counting the user's committed writes,
and the idempotency guarantees — every keyed transaction has a record,
a key marks at most one transaction, and a finalized record's envelope
describes the transaction that finalized it. -/
structure Inv (s : LedgerState) : Prop where
  balNonneg : ∀ u, 0 ≤ accountBalance s u
  balLedger : ∀ u, accountBalance s u = ledgerBalance s u
  verCount : ∀ u, accountVersion s u =
    ((s.transactions.filter fun t => t.userId == u).length : Int)
  txKeyRec : ∀ t ∈ s.transactions, ∀ k : String, t.idempotencyKey = some k →
    (findIdem s.idemKeys k).isSome
  keyOnce : ∀ k : String,
    (s.transactions.filter fun t => t.idempotencyKey == some k).length ≤ 1
  recTx : ∀ (k : String) (rec : IdemRow) (e : ResponseEnvelope),
    findIdem s.idemKeys k = some rec → rec.response = .envelope e →
    ∃ t, t ∈ s.transactions ∧ t.idempotencyKey = some k ∧
      e.id = t.id ∧ e.user_id = t.userId ∧ e.amount = t.amount ∧ e.type = t.type

end Ledger

namespace AuthModel

/-!
The Ledger's auth guard: `JwtStrategy.validate` (jwt.strategy.ts) calls
`AuthService.validateRemoteToken` (auth.service.ts), which mints an
internal JWT and POSTs the external token to Identity's
`/auth/validate-user-jwt`. The HTTP exchange is abstracted as an outcome:
either a decoded response body `{valid, user_id?}` or a thrown error
(network failure or undecodable response).
-/

/-- The outcome of the remote validation HTTP call. -/
inductive RemoteOutcome
  | response (valid : Bool) (user_id : Option String)
  | failure
deriving DecidableEq, Repr

/-- The `{valid, userId?}` record `validateRemoteToken` resolves with. -/
structure ValidationResult where
  valid : Bool
  userId : Option String
deriving DecidableEq, Repr

/-- `AuthService.validateRemoteToken` (auth.service.ts lines 31-66):
`{valid: true, userId: data.user_id}` when the body says valid, and
`{valid: false}` when it says invalid or when anything throws. -/
def validateRemoteToken : RemoteOutcome → ValidationResult
  | .response true u => ⟨true, u⟩
  | .response false _ => ⟨false, none⟩
  | .failure => ⟨false, none⟩

/-- The request principal the guard attaches: `{ userId: result.userId }`. -/
structure Principal where
  userId : Option String
deriving DecidableEq, Repr

/-- The transport-level rejection. -/
inductive AuthError
  | unauthorized
deriving DecidableEq, Repr

/-- `JwtStrategy.validate` (jwt.strategy.ts lines 18-32): missing bearer
token → `UnauthorizedException`; otherwise the principal is whatever
`validateRemoteToken` answered, rejected unless `result.valid`. The
external token's own claims are never consulted. -/
def jwtStrategyValidate (token : Option String) (outcome : RemoteOutcome) :
    Except AuthError Principal :=
  match token with
  | none => .error .unauthorized
  | some _ =>
    let result := validateRemoteToken outcome
    if result.valid then .ok ⟨result.userId⟩ else .error .unauthorized

/-- A guard-protected endpoint: the handler runs, and can touch the
database state, only when the guard lets the request through. -/
def guardedEndpoint {σ α : Type} (token : Option String)
    (outcome : RemoteOutcome) (handler : Principal → σ → α × σ) (s : σ) :
    Except AuthError α × σ :=
  match jwtStrategyValidate token outcome with
  | .error e => (.error e, s)
  | .ok p =>
    let r := handler p s
    (.ok r.1, r.2)

end AuthModel

namespace UsersModel

/-!
The Identity service's user item operations. `UsersController`
(users.controller.ts) passes `req.user.userId` as an extra argument to
`UsersService.findOne` / `update` / `remove`; the service methods
(users.service.ts) declare no such parameter, so in JavaScript the extra
argument is silently dropped and no ownership check happens. The
controller wrappers below reproduce exactly that.
-/

/-- A row of the `users` table. -/
structure UserRow where
  id : String
  email : String
  firstName : String
  lastName : String
  password : String
deriving DecidableEq, Repr

/-- `UserResponseDto`, produced by `toResponseDto`: snake_case keys and
no password. -/
structure UserResponseDto where
  id : String
  email : String
  first_name : String
  last_name : String
deriving DecidableEq, Repr

/-- `UpdateUserDto` restricted to the name fields; the optional password
re-hash is irrelevant to the ownership claims and omitted. -/
structure UpdateUserDto where
  first_name : Option String
  last_name : Option String
deriving DecidableEq, Repr

/-- The errors the service throws. -/
inductive UsersError
  | notFound
  | conflict
deriving DecidableEq, Repr

/-- `toResponseDto` (users.service.ts lines 94-101). -/
def toResponseDto (u : UserRow) : UserResponseDto :=
  ⟨u.id, u.email, u.firstName, u.lastName⟩

/-- `UsersRepository.findById`. -/
def findById (users : List UserRow) (id : String) : Option UserRow :=
  users.find? (fun u => u.id == id)

/-- `UsersService.findOne` (users.service.ts lines 43-49): `NotFound`
when missing, the user view otherwise. No requester parameter exists. -/
def usersServiceFindOne (users : List UserRow) (id : String) :
    Except UsersError UserResponseDto :=
  match findById users id with
  | none => .error .notFound
  | some u => .ok (toResponseDto u)

/-- `UsersRepository.update` restricted to the name fields. -/
def applyUpdate (dto : UpdateUserDto) (u : UserRow) : UserRow :=
  { u with
    firstName := dto.first_name.getD u.firstName
    lastName := dto.last_name.getD u.lastName }

/-- `UsersService.update` (users.service.ts lines 59-82): `NotFound` when
missing, else update and return the view. No requester parameter exists. -/
def usersServiceUpdate (users : List UserRow) (id : String)
    (dto : UpdateUserDto) : Except UsersError (UserResponseDto × List UserRow) :=
  match findById users id with
  | none => .error .notFound
  | some u =>
    .ok (toResponseDto (applyUpdate dto u),
      users.map (fun x => if x.id == id then applyUpdate dto x else x))

/-- `UsersService.remove` (users.service.ts lines 84-92): `NotFound` when
missing, else delete. No requester parameter exists. -/
def usersServiceRemove (users : List UserRow) (id : String) :
    Except UsersError (List UserRow) :=
  match findById users id with
  | none => .error .notFound
  | some _ => .ok (users.filter (fun u => u.id != id))

/-- `UsersController.findOne` (users.controller.ts lines 104-108): calls
`usersService.findOne(id, req.user.userId)` — the second argument is
dropped by the service's signature. -/
def usersControllerFindOne (users : List UserRow) (id : String)
    (_requesterId : String) : Except UsersError UserResponseDto :=
  usersServiceFindOne users id

/-- `UsersController.update` (lines 110-118): the requester argument is
likewise dropped. -/
def usersControllerUpdate (users : List UserRow) (id : String)
    (dto : UpdateUserDto) (_requesterId : String) :
    Except UsersError (UserResponseDto × List UserRow) :=
  usersServiceUpdate users id dto

/-- `UsersController.remove` (lines 120-124): the requester argument is
likewise dropped. -/
def usersControllerRemove (users : List UserRow) (id : String)
    (_requesterId : String) : Except UsersError (List UserRow) :=
  usersServiceRemove users id

end UsersModel

deriving instance DecidableEq for Except

namespace Ledger

/-! ### Helper lemmas about the row-list primitives -/

theorem filter_append_single {α : Type} (p : α → Bool) (l : List α) (t : α) :
    (l ++ [t]).filter p = l.filter p ++ if p t then [t] else [] := by
  by_cases h : p t <;> simp [List.filter_append, h]

theorem updIdem_key (k : String) (resp : StoredResponse) (exp : Int) (r : IdemRow) :
    (updIdem k resp exp r).key = r.key := by
  unfold updIdem; split <;> rfl

theorem findIdem_map_updIdem (l : List IdemRow) (k k' : String)
    (resp : StoredResponse) (exp : Int) :
    findIdem (l.map (updIdem k resp exp)) k' = (findIdem l k').map (updIdem k resp exp) := by
  induction l with
  | nil => rfl
  | cons r rest ih =>
    unfold findIdem at ih ⊢
    by_cases h : (r.key == k') = true
    · simp [List.find?_cons, updIdem_key, h]
    · simp only [List.map_cons, List.find?_cons, updIdem_key, h]
      simpa using ih

theorem findIdem_append (l₁ l₂ : List IdemRow) (k : String) :
    findIdem (l₁ ++ l₂) k = (findIdem l₁ k).or (findIdem l₂ k) := by
  simp [findIdem, List.find?_append]

theorem updAccount_userId (u : String) (b v : Int) (a : AccountRow) :
    (updAccount u b v a).userId = a.userId := by
  unfold updAccount; split <;> rfl

theorem find?_map_updAccount (l : List AccountRow) (u u' : String) (b v : Int) :
    (l.map (updAccount u b v)).find? (fun a => a.userId == u') =
      (l.find? (fun a => a.userId == u')).map (updAccount u b v) := by
  induction l with
  | nil => rfl
  | cons a rest ih =>
    by_cases h : (a.userId == u') = true
    · simp [List.find?_cons, updAccount_userId, h]
    · simp only [List.map_cons, List.find?_cons, updAccount_userId, h]
      simpa using ih

theorem idem_any_iff_find? (l : List IdemRow) (k : String) :
    l.any (fun r => r.key == k) = true ↔ (findIdem l k).isSome := by
  rw [List.any_eq_true, findIdem]
  constructor
  · rintro ⟨r, hr, hk⟩
    cases hfind : l.find? (fun r => r.key == k) with
    | some _ => rfl
    | none =>
      rw [List.find?_eq_none] at hfind
      exact absurd hk (hfind r hr)
  · intro h
    cases hfind : l.find? (fun r => r.key == k) with
    | some r =>
      have hp := List.find?_some hfind
      exact ⟨r, List.mem_of_find?_eq_some hfind, hp⟩
    | none => rw [hfind] at h; exact absurd h (by simp)

theorem checkIdempotency_none_eq (idem : List IdemRow) (now : Int) :
    checkIdempotency idem now none = .ok idem := rfl

theorem checkIdempotency_fresh (idem : List IdemRow) (now : Int) (k : String)
    (h : findIdem idem k = none) :
    checkIdempotency idem now (some k) =
      .ok (idem ++ [⟨k, .pending, now + ninetyDaysMs⟩]) := by
  have hany : idem.any (fun r => r.key == k) = false := by
    rw [← Bool.not_eq_true, idem_any_iff_find? idem k, h]
    simp
  simp [checkIdempotency, h, idemCreate, hany]

theorem checkIdempotency_live (idem : List IdemRow) (now : Int) (k : String)
    (rec : IdemRow) (hfind : findIdem idem k = some rec)
    (hlive : now < rec.expiresAt) :
    checkIdempotency idem now (some k) =
      .error (.idempotencyDuplicate rec.response) := by
  simp [checkIdempotency, hfind, hlive]

theorem checkIdempotency_expired (idem : List IdemRow) (now : Int) (k : String)
    (rec : IdemRow) (hfind : findIdem idem k = some rec)
    (hexp : rec.expiresAt ≤ now) :
    checkIdempotency idem now (some k) = .error .uniqueKeyViolation := by
  have hany : idem.any (fun r => r.key == k) = true := by
    rw [idem_any_iff_find? idem k, hfind]; rfl
  have hnlt : ¬ now < rec.expiresAt := not_lt.mpr hexp
  simp [checkIdempotency, hfind, hnlt, idemCreate, hany]

theorem checkIdempotency_ok_elim (idem idem' : List IdemRow) (now : Int)
    (key : Option String)
    (h : checkIdempotency idem now key = .ok idem') :
    (key = none ∧ idem' = idem) ∨
      (∃ k, key = some k ∧ findIdem idem k = none ∧
        idem' = idem ++ [⟨k, .pending, now + ninetyDaysMs⟩]) := by
  cases key with
  | none =>
    left
    refine ⟨rfl, ?_⟩
    simpa [checkIdempotency] using h.symm
  | some k =>
    right
    refine ⟨k, rfl, ?_⟩
    cases hfind : findIdem idem k with
    | some rec =>
      by_cases hlive : now < rec.expiresAt
      · rw [checkIdempotency_live idem now k rec hfind hlive] at h
        exact absurd h (by simp)
      · rw [checkIdempotency_expired idem now k rec hfind (not_lt.mp hlive)] at h
        exact absurd h (by simp)
    | none =>
      rw [checkIdempotency_fresh idem now k hfind] at h
      exact ⟨rfl, by simpa using h.symm⟩

theorem calculateNewBalance_ok_elim (b : Int) (ty : TransactionType) (a nb : Int)
    (h : calculateNewBalance b ty a = .ok nb) :
    0 ≤ nb ∧ nb = proposedBalance b ty a := by
  cases ty with
  | CREDIT =>
    simp only [calculateNewBalance] at h
    by_cases hneg : b + a < 0
    · simp [hneg] at h
    · simp [hneg] at h
      simp only [proposedBalance]
      omega
  | DEBIT =>
    simp only [calculateNewBalance] at h
    by_cases hneg : b - a < 0
    · simp [hneg] at h
    · simp [hneg] at h
      simp only [proposedBalance]
      omega

theorem calculateNewBalance_neg (b : Int) (ty : TransactionType) (a : Int)
    (h : proposedBalance b ty a < 0) :
    calculateNewBalance b ty a = .error .insufficientBalance := by
  cases ty <;> simp only [proposedBalance] at h <;> simp [calculateNewBalance, h]

theorem calculateNewBalance_nonneg (b : Int) (ty : TransactionType) (a : Int)
    (h : 0 ≤ proposedBalance b ty a) :
    calculateNewBalance b ty a = .ok (proposedBalance b ty a) := by
  cases ty <;> simp only [proposedBalance] at h ⊢ <;>
    simp [calculateNewBalance, not_lt.mpr h, Int.not_lt.mpr h]

theorem finalizeIdempotency_none_eq (idem : List IdemRow) (now : Int) (t : TxRow) :
    finalizeIdempotency idem now none t = .ok idem := rfl

theorem finalizeIdempotency_some_eq (idem : List IdemRow) (now : Int)
    (k : String) (t : TxRow)
    (h : (findIdem idem k).isSome) :
    finalizeIdempotency idem now (some k) t =
      .ok (idem.map (updIdem k (.envelope ⟨t.id, t.userId, t.amount, t.type⟩)
        (now + twentyFourHoursMs))) := by
  have hany : idem.any (fun r => r.key == k) = true := (idem_any_iff_find? idem k).mpr h
  simp [finalizeIdempotency, idemUpdate, hany]

theorem account_any_iff_find? (l : List AccountRow) (u : String) :
    l.any (fun a => a.userId == u) = true ↔
      (l.find? (fun a => a.userId == u)).isSome := by
  rw [List.any_eq_true]
  constructor
  · rintro ⟨a, ha, hu⟩
    cases hfind : l.find? (fun a => a.userId == u) with
    | some _ => rfl
    | none =>
      rw [List.find?_eq_none] at hfind
      exact absurd hu (hfind a ha)
  · intro h
    cases hfind : l.find? (fun a => a.userId == u) with
    | some a =>
      have hp := List.find?_some hfind
      exact ⟨a, List.mem_of_find?_eq_some hfind, hp⟩
    | none => rw [hfind] at h; exact absurd h (by simp)

theorem processAccount_absent (l : List AccountRow) (u : String) (b v : Int)
    (h : l.find? (fun a => a.userId == u) = none) :
    processAccount l u b v = l ++ [⟨u, b, 1⟩] := by
  have hany : l.any (fun a => a.userId == u) = false := by
    rw [← Bool.not_eq_true, account_any_iff_find? l u, h]
    simp
  simp [processAccount, hany]

theorem processAccount_present (l : List AccountRow) (u : String) (b v : Int)
    (a0 : AccountRow) (h : l.find? (fun a => a.userId == u) = some a0) :
    processAccount l u b v = l.map (updAccount u b v) := by
  have hany : l.any (fun a => a.userId == u) = true := by
    rw [account_any_iff_find? l u, h]; rfl
  simp [processAccount, hany]

theorem find?_processAccount_self (l : List AccountRow) (u : String) (b v : Int) :
    (processAccount l u b v).find? (fun a => a.userId == u) =
      some (match l.find? (fun a => a.userId == u) with
            | some _ => ⟨u, b, v + 1⟩
            | none => ⟨u, b, 1⟩) := by
  cases h : l.find? (fun a => a.userId == u) with
  | none =>
    rw [processAccount_absent l u b v h, List.find?_append, h]
    simp [List.find?_cons]
  | some a0 =>
    rw [processAccount_present l u b v a0 h, find?_map_updAccount, h]
    have ha : a0.userId = u := by
      have := List.find?_some h
      simpa using this
    simp [updAccount, ha]

theorem find?_processAccount_other (l : List AccountRow) (u : String) (b v : Int)
    (u' : String) (h : u' ≠ u) :
    (processAccount l u b v).find? (fun a => a.userId == u') =
      l.find? (fun a => a.userId == u') := by
  unfold processAccount
  split
  · rw [find?_map_updAccount]
    cases hf : l.find? (fun a => a.userId == u') with
    | none => rfl
    | some a0 =>
      have ha : a0.userId = u' := by
        have := List.find?_some hf
        simpa using this
      simp [updAccount, ha, h]
  · rw [List.find?_append]
    cases hf : l.find? (fun a => a.userId == u') with
    | some a0 => rfl
    | none =>
      have hne : (u == u') = false := by
        rw [beq_eq_false_iff_ne]
        exact fun hh => h hh.symm
      simp [List.find?_cons, hne]

theorem createTransactionWithLock_ok_elim (s : LedgerState) (now : Int)
    (p : CreateTransactionParams) (r : TransactionResult) (s' : LedgerState)
    (h : createTransactionWithLock s now p = .ok (r, s')) :
    ∃ idem1 nb idem2,
      checkIdempotency s.idemKeys now p.idempotencyKey = .ok idem1 ∧
      calculateNewBalance (readCurrentAccount s.accounts p.userId).1 p.type p.amount = .ok nb ∧
      finalizeIdempotency idem1 now p.idempotencyKey
        ⟨s.nextId, p.userId, p.type, p.amount, p.idempotencyKey⟩ = .ok idem2 ∧
      r = ⟨s.nextId, p.userId, p.type, p.amount⟩ ∧
      s' = { transactions := s.transactions ++ [⟨s.nextId, p.userId, p.type, p.amount, p.idempotencyKey⟩]
             accounts := processAccount s.accounts p.userId nb
               (readCurrentAccount s.accounts p.userId).2
             idemKeys := idem2
             nextId := s.nextId + 1 } := by
  simp only [createTransactionWithLock] at h
  split at h
  · exact absurd h (by simp)
  · rename_i idem1 hc
    split at h
    · exact absurd h (by simp)
    · rename_i nb hb
      split at h
      · exact absurd h (by simp)
      · rename_i idem2 hf
        simp only [mapToResult, Except.ok.injEq, Prod.mk.injEq] at h
        exact ⟨idem1, nb, idem2, hc, hb, hf, h.1.symm, h.2.symm⟩

theorem stepState_of_error (s : LedgerState) (now : Int) (p : CreateTransactionParams)
    (e : TxError) (h : createTransactionWithLock s now p = .error e) :
    stepState s now p = s := by
  simp [stepState, h]

theorem stepState_of_ok (s : LedgerState) (now : Int) (p : CreateTransactionParams)
    (r : TransactionResult) (s' : LedgerState)
    (h : createTransactionWithLock s now p = .ok (r, s')) :
    stepState s now p = s' := by
  simp [stepState, h]

theorem execAll_snoc (ops : List (Int × CreateTransactionParams))
    (now : Int) (p : CreateTransactionParams) :
    execAll (ops ++ [(now, p)]) = stepState (execAll ops) now p := by
  simp [execAll, List.foldl_append]

theorem readCurrentAccount_fst (acc : List AccountRow) (u : String) :
    (readCurrentAccount acc u).1 = balanceOf acc u := by
  unfold readCurrentAccount balanceOf
  cases acc.find? (fun a => a.userId == u) <;> rfl

theorem readCurrentAccount_snd (acc : List AccountRow) (u : String) :
    (readCurrentAccount acc u).2 = versionOf acc u := by
  unfold readCurrentAccount versionOf
  cases acc.find? (fun a => a.userId == u) <;> rfl

theorem balanceOf_processAccount_self (acc : List AccountRow) (u : String) (nb v : Int) :
    balanceOf (processAccount acc u nb v) u = nb := by
  unfold balanceOf
  rw [find?_processAccount_self]
  cases acc.find? (fun a => a.userId == u) <;> rfl

theorem balanceOf_processAccount_other (acc : List AccountRow) (u : String) (nb v : Int)
    (u' : String) (h : u' ≠ u) :
    balanceOf (processAccount acc u nb v) u' = balanceOf acc u' := by
  unfold balanceOf
  rw [find?_processAccount_other acc u nb v u' h]

theorem versionOf_processAccount_self (acc : List AccountRow) (u : String) (nb : Int) :
    versionOf (processAccount acc u nb (versionOf acc u)) u = versionOf acc u + 1 := by
  unfold versionOf
  rw [find?_processAccount_self]
  cases h : acc.find? (fun a => a.userId == u) <;> simp [h]

theorem versionOf_processAccount_other (acc : List AccountRow) (u : String) (nb v : Int)
    (u' : String) (h : u' ≠ u) :
    versionOf (processAccount acc u nb v) u' = versionOf acc u' := by
  unfold versionOf
  rw [find?_processAccount_other acc u nb v u' h]

theorem creditsOf_append (l : List TxRow) (t : TxRow) (u : String) :
    creditsOf (l ++ [t]) u =
      creditsOf l u +
        if t.userId = u ∧ t.type = TransactionType.CREDIT then t.amount else 0 := by
  unfold creditsOf
  rw [filter_append_single]
  by_cases h : (t.userId == u && t.type == TransactionType.CREDIT) = true
  · have hp : t.userId = u ∧ t.type = TransactionType.CREDIT := by
      simpa [Bool.and_eq_true, beq_iff_eq] using h
    simp [h, hp]
  · have hp : ¬(t.userId = u ∧ t.type = TransactionType.CREDIT) := by
      simpa [Bool.and_eq_true, beq_iff_eq] using h
    simp [h, hp]

theorem debitsOf_append (l : List TxRow) (t : TxRow) (u : String) :
    debitsOf (l ++ [t]) u =
      debitsOf l u +
        if t.userId = u ∧ t.type = TransactionType.DEBIT then t.amount else 0 := by
  unfold debitsOf
  rw [filter_append_single]
  by_cases h : (t.userId == u && t.type == TransactionType.DEBIT) = true
  · have hp : t.userId = u ∧ t.type = TransactionType.DEBIT := by
      simpa [Bool.and_eq_true, beq_iff_eq] using h
    simp [h, hp]
  · have hp : ¬(t.userId = u ∧ t.type = TransactionType.DEBIT) := by
      simpa [Bool.and_eq_true, beq_iff_eq] using h
    simp [h, hp]

theorem length_filter_append_single {α : Type} (p : α → Bool) (l : List α) (t : α) :
    ((l ++ [t]).filter p).length = (l.filter p).length + if p t then 1 else 0 := by
  rw [filter_append_single]
  by_cases h : p t <;> simp [h]

/-- The shape of the idempotency table after a committed write: untouched
without a key; with key `k0`, the key was fresh, other keys are untouched,
and `k0` now stores the envelope of the appended transaction with a
24-hour TTL. -/
theorem idemKeys_after_ok (idemS idem1 idem2 : List IdemRow) (now : Int)
    (key : Option String) (t : TxRow)
    (hc : checkIdempotency idemS now key = .ok idem1)
    (hf : finalizeIdempotency idem1 now key t = .ok idem2) :
    (key = none ∧ idem2 = idemS) ∨
    (∃ k0, key = some k0 ∧ findIdem idemS k0 = none ∧
      (∀ k, k ≠ k0 → findIdem idem2 k = findIdem idemS k) ∧
      findIdem idem2 k0 =
        some ⟨k0, .envelope ⟨t.id, t.userId, t.amount, t.type⟩,
          now + twentyFourHoursMs⟩) := by
  rcases checkIdempotency_ok_elim idemS idem1 now key hc with
    ⟨hkey, hidem1⟩ | ⟨k0, hkey, hfresh, hidem1⟩
  · left
    refine ⟨hkey, ?_⟩
    subst hkey hidem1
    simpa [finalizeIdempotency_none_eq] using hf.symm
  · right
    subst hkey
    have hmem : (findIdem idem1 k0).isSome := by
      rw [hidem1, findIdem_append, hfresh]
      simp [findIdem, List.find?_cons]
    rw [finalizeIdempotency_some_eq idem1 now k0 t hmem] at hf
    have hidem2 : idem2 =
        (idemS ++ [(⟨k0, StoredResponse.pending, now + ninetyDaysMs⟩ : IdemRow)]).map
          (updIdem k0 (.envelope ⟨t.id, t.userId, t.amount, t.type⟩)
            (now + twentyFourHoursMs)) := by
      rw [← hidem1]
      simpa using hf.symm
    refine ⟨k0, rfl, hfresh, ?_, ?_⟩
    · intro k hk
      rw [hidem2, findIdem_map_updIdem, findIdem_append]
      have hrow : findIdem [(⟨k0, StoredResponse.pending, now + ninetyDaysMs⟩ : IdemRow)] k = none := by
        simp only [findIdem, List.find?_cons]
        have : (k0 == k) = false := by
          rw [beq_eq_false_iff_ne]
          exact Ne.symm hk
        simp [this]
      rw [hrow]
      cases hmain : findIdem idemS k with
      | none => rfl
      | some rec0 =>
        have hk0 : rec0.key = k := by
          have := List.find?_some hmain
          simpa using this
        have : updIdem k0 (.envelope ⟨t.id, t.userId, t.amount, t.type⟩)
            (now + twentyFourHoursMs) rec0 = rec0 := by
          unfold updIdem
          have hne : (rec0.key == k0) = false := by
            rw [beq_eq_false_iff_ne, hk0]
            exact hk
          simp [hne]
        simp [Option.or, this]
    · rw [hidem2, findIdem_map_updIdem, findIdem_append, hfresh]
      have hrow : findIdem [(⟨k0, StoredResponse.pending, now + ninetyDaysMs⟩ : IdemRow)] k0 =
          some (⟨k0, StoredResponse.pending, now + ninetyDaysMs⟩ : IdemRow) := by
        simp [findIdem, List.find?_cons]
      rw [hrow]
      simp [Option.or, updIdem]


theorem inv_initial : Inv initialState := by
  refine ⟨?_, ?_, ?_, ?_, ?_, ?_⟩ <;>
    simp [initialState, accountBalance, accountVersion, balanceOf, versionOf,
      ledgerBalance, creditsOf, debitsOf, findIdem]

/-- Every run of the write protocol, committed or aborted, preserves the
reachable-state invariant. -/
theorem inv_step (s : LedgerState) (now : Int) (p : CreateTransactionParams)
    (hs : Inv s) : Inv (stepState s now p) := by
  cases h : createTransactionWithLock s now p with
  | error e => rw [stepState_of_error s now p e h]; exact hs
  | ok rs =>
    obtain ⟨r, s'⟩ := rs
    rw [stepState_of_ok s now p r s' h]
    obtain ⟨idem1, nb, idem2, hc, hb, hf, hr, hs'⟩ :=
      createTransactionWithLock_ok_elim s now p r s' h
    obtain ⟨hnb0, hnbeq⟩ := calculateNewBalance_ok_elim _ _ _ _ hb
    rw [readCurrentAccount_fst] at hnbeq
    have hidem := idemKeys_after_ok s.idemKeys idem1 idem2 now p.idempotencyKey
      ⟨s.nextId, p.userId, p.type, p.amount, p.idempotencyKey⟩ hc hf
    subst hs'
    constructor
    case balNonneg =>
      intro u
      by_cases hu : u = p.userId
      · subst hu
        simpa [accountBalance, balanceOf_processAccount_self] using hnb0
      · have hold := hs.balNonneg u
        simpa [accountBalance, balanceOf_processAccount_other _ _ _ _ _ hu] using hold
    case balLedger =>
      intro u
      by_cases hu : u = p.userId
      · subst hu
        have hbal := hs.balLedger p.userId
        simp only [accountBalance, ledgerBalance] at hbal ⊢
        rw [balanceOf_processAccount_self, creditsOf_append, debitsOf_append, hnbeq]
        cases hty : p.type <;> simp [proposedBalance, hty] <;> omega
      · have hbal := hs.balLedger u
        simp only [accountBalance, ledgerBalance] at hbal ⊢
        rw [balanceOf_processAccount_other _ _ _ _ _ hu, creditsOf_append, debitsOf_append]
        have hne : ¬ (p.userId = u) := fun hh => hu hh.symm
        simp [hne, hbal]
    case verCount =>
      intro u
      by_cases hu : u = p.userId
      · subst hu
        have hver := hs.verCount p.userId
        simp only [accountVersion] at hver ⊢
        rw [readCurrentAccount_snd, versionOf_processAccount_self,
          length_filter_append_single]
        have hpred : ((⟨s.nextId, p.userId, p.type, p.amount, p.idempotencyKey⟩ :
            TxRow).userId == p.userId) = true := by simp
        simp only [hpred, if_true]
        push_cast
        omega
      · have hver := hs.verCount u
        simp only [accountVersion] at hver ⊢
        rw [readCurrentAccount_snd, versionOf_processAccount_other _ _ _ _ _ hu,
          length_filter_append_single]
        have hpred : ((⟨s.nextId, p.userId, p.type, p.amount, p.idempotencyKey⟩ :
            TxRow).userId == u) = false := by
          rw [beq_eq_false_iff_ne]
          exact fun hh => hu hh.symm
        simp [hpred, hver]
    case txKeyRec =>
      intro t ht k hk
      rcases List.mem_append.mp ht with htold | htnew
      · rcases hidem with ⟨hkeynone, hidem2eq⟩ | ⟨k0, hkey, hfresh, hother, hk0⟩
        · rw [hidem2eq]
          exact hs.txKeyRec t htold k hk
        · by_cases hkk : k = k0
          · subst hkk
            rw [hk0]; rfl
          · rw [hother k hkk]
            exact hs.txKeyRec t htold k hk
      · have ht' : t = ⟨s.nextId, p.userId, p.type, p.amount, p.idempotencyKey⟩ := by
          simpa using htnew
        subst ht'
        have hk' : p.idempotencyKey = some k := hk
        rcases hidem with ⟨hkeynone, hidem2eq⟩ | ⟨k0, hkey, hfresh, hother, hk0⟩
        · rw [hkeynone] at hk'
          exact absurd hk' (by simp)
        · rw [hkey] at hk'
          have hkk : k0 = k := Option.some.inj hk'
          subst hkk
          rw [hk0]; rfl
    case keyOnce =>
      intro k
      rw [length_filter_append_single]
      rcases hidem with ⟨hkeynone, hidem2eq⟩ | ⟨k0, hkey, hfresh, hother, hk0⟩
      · have hpred : ((⟨s.nextId, p.userId, p.type, p.amount, p.idempotencyKey⟩ :
            TxRow).idempotencyKey == some k) = false := by
          show (p.idempotencyKey == some k) = false
          rw [hkeynone]
          rfl
        simpa [hpred] using hs.keyOnce k
      · by_cases hkk : k = k0
        · subst hkk
          have hzero : s.transactions.filter (fun t => t.idempotencyKey == some k) = [] := by
            rw [List.filter_eq_nil_iff]
            intro t ht hkt
            have hkt' : t.idempotencyKey = some k := by simpa using hkt
            have hsome := hs.txKeyRec t ht k hkt'
            rw [hfresh] at hsome
            simp at hsome
          have hpred : ((⟨s.nextId, p.userId, p.type, p.amount, p.idempotencyKey⟩ :
              TxRow).idempotencyKey == some k) = true := by
            show (p.idempotencyKey == some k) = true
            rw [hkey]
            simp
          simp [hpred, hzero]
        · have hpred : ((⟨s.nextId, p.userId, p.type, p.amount, p.idempotencyKey⟩ :
              TxRow).idempotencyKey == some k) = false := by
            show (p.idempotencyKey == some k) = false
            rw [hkey, beq_eq_false_iff_ne]
            intro hceq
            exact hkk (Option.some.inj hceq).symm
          simpa [hpred] using hs.keyOnce k
    case recTx =>
      intro k rec e hfind hresp
      rcases hidem with ⟨hkeynone, hidem2eq⟩ | ⟨k0, hkey, hfresh, hother, hk0⟩
      · rw [hidem2eq] at hfind
        obtain ⟨t, htmem, htkey, hid, huid, hamt, hty⟩ := hs.recTx k rec e hfind hresp
        exact ⟨t, List.mem_append_left _ htmem, htkey, hid, huid, hamt, hty⟩
      · by_cases hkk : k = k0
        · subst hkk
          rw [hk0] at hfind
          have hrec : rec = ⟨k, .envelope ⟨s.nextId, p.userId, p.amount, p.type⟩,
              now + twentyFourHoursMs⟩ := (Option.some.inj hfind).symm
          subst hrec
          have henv : StoredResponse.envelope ⟨s.nextId, p.userId, p.amount, p.type⟩ =
              StoredResponse.envelope e := hresp
          have he : e = ⟨s.nextId, p.userId, p.amount, p.type⟩ :=
            (StoredResponse.envelope.inj henv).symm
          subst he
          exact ⟨⟨s.nextId, p.userId, p.type, p.amount, p.idempotencyKey⟩,
            List.mem_append_right _ (List.mem_singleton.mpr rfl), hkey,
            rfl, rfl, rfl, rfl⟩
        · rw [hother k hkk] at hfind
          obtain ⟨t, htmem, htkey, hid, huid, hamt, hty⟩ := hs.recTx k rec e hfind hresp
          exact ⟨t, List.mem_append_left _ htmem, htkey, hid, huid, hamt, hty⟩

/-- Every state reachable by a sequence of committed write-protocol
executions satisfies the invariant. -/
theorem inv_execAll (ops : List (Int × CreateTransactionParams)) : Inv (execAll ops) := by
  suffices hgen : ∀ (l : List (Int × CreateTransactionParams)) (s : LedgerState), Inv s →
      Inv (l.foldl (fun s op => stepState s op.1 op.2) s) by
    exact hgen ops initialState inv_initial
  intro l
  induction l with
  | nil => exact fun s hs => hs
  | cons op rest ih => exact fun s hs => ih _ (inv_step s op.1 op.2 hs)

end Ledger

namespace Ledger

/-! ### Behaviour of the retry loop -/

theorem retry_terminal {α : Type} (run : Nat → Except JsError α) (rand : Nat → ℚ)
    (m : Nat) (e : JsError) (h1 : run 1 = .error e)
    (hns : isSerializationFailure e = false) :
    createTransactionWithRetry run rand (m + 1) = (.error e, []) := by
  unfold createTransactionWithRetry
  simp [retryLoop, h1, hns]

theorem map_range_shift {β : Type} (f : Nat → β) (n : Nat) :
    (List.range (n + 1)).map (fun i => f i) = f 0 :: (List.range n).map (fun i => f (i + 1)) := by
  rw [List.range_succ_eq_map]
  simp only [List.map_cons, List.map_map]
  rfl

theorem retryLoop_all_ser {α : Type} (es : Nat → JsError) (rand : Nat → ℚ) (m : Nat)
    (hser : ∀ n, isSerializationFailure (es n) = true) :
    ∀ (fuel attempt : Nat), 1 ≤ attempt → attempt ≤ m → attempt + fuel = m + 1 →
      retryLoop (fun n => (.error (es n) : Except JsError α)) rand m attempt fuel =
        (.error (es m),
          (List.range (fuel - 1)).map
            (fun i => computeBackoffMs (attempt + i) (rand (attempt + i)))) := by
  intro fuel
  induction fuel with
  | zero => intro attempt h1 h2 h3; omega
  | succ fuel' ih =>
    intro attempt h1 h2 h3
    by_cases hlt : attempt < m
    · have hrec := ih (attempt + 1) (by omega) (by omega) (by omega)
      obtain ⟨g, hg⟩ : ∃ g, fuel' = g + 1 := ⟨fuel' - 1, by omega⟩
      have hcond : (isSerializationFailure (es attempt) && decide (attempt < m)) = true := by
        rw [hser attempt]
        simpa using hlt
      simp only [retryLoop, hcond, if_true, hrec]
      subst hg
      simp only [Nat.add_sub_cancel, Prod.mk.injEq]
      refine ⟨trivial, ?_⟩
      rw [map_range_shift (fun i => computeBackoffMs (attempt + i) (rand (attempt + i))) g]
      simp only [Nat.add_zero, List.cons.injEq]
      refine ⟨trivial, ?_⟩
      apply List.map_congr_left
      intro i hi
      have harg : attempt + 1 + i = attempt + (i + 1) := by omega
      rw [harg]
    · have hm : attempt = m := by omega
      have hfz : fuel' = 0 := by omega
      subst hm hfz
      simp [retryLoop, hser, hlt]

theorem retry_all_ser {α : Type} (es : Nat → JsError) (rand : Nat → ℚ)
    (hser : ∀ n, isSerializationFailure (es n) = true) :
    createTransactionWithRetry (fun n => (.error (es n) : Except JsError α)) rand
        defaultMaxAttempts =
      (.error (es 10),
        (List.range 9).map (fun i => computeBackoffMs (i + 1) (rand (i + 1)))) := by
  unfold createTransactionWithRetry defaultMaxAttempts
  rw [retryLoop_all_ser es rand 10 hser 10 1 (by omega) (by omega) (by omega)]
  refine congrArg _ ?_
  apply List.map_congr_left
  intro i hi
  have harg : 1 + i = i + 1 := by omega
  rw [harg]

end Ledger

namespace Ledger

/-- The service layer converts an inner `IDEMPOTENCY_DUPLICATE` carrying a
finalized (parseable) cached response into a success carrying that
envelope, leaving the database untouched. -/
theorem serviceReplayCached (s : LedgerState) (now : Int) (dto : CreateTransactionDto)
    (u k : String) (rec : IdemRow) (e : ResponseEnvelope)
    (hamt : 0 < dto.amount)
    (hrec : findIdem s.idemKeys k = some rec)
    (hlive : now < rec.expiresAt)
    (hresp : rec.response = .envelope e) :
    serviceCreateTransaction s now dto u (some k) = (.success e, s) := by
  have hc : checkIdempotency s.idemKeys now (some k) =
      .error (.idempotencyDuplicate rec.response) :=
    checkIdempotency_live s.idemKeys now k rec hrec hlive
  have hlock : createTransactionWithLock s now ⟨u, dto.type, dto.amount, some k⟩ =
      .error (.idempotencyDuplicate rec.response) := by
    simp only [createTransactionWithLock, hc]
  have hneg : ¬ dto.amount ≤ 0 := not_le.mpr hamt
  simp only [serviceCreateTransaction, hneg, if_false, hlock, hresp, parseStored]

end Ledger

namespace Ledger

/-- C1: For every user and every sequence of committed write-protocol
executions (`createTransactionWithLock`) from the empty database, the
Account snapshot satisfies `balance ≥ 0` and `balance` equals the sum of
CREDIT amounts minus the sum of DEBIT amounts over that user's
Transaction rows; moreover a further write-protocol execution from any
such state again preserves both facts. -/
theorem ledgerInvariant (ops : List (Int × CreateTransactionParams)) (u : String) :
    0 ≤ accountBalance (execAll ops) u ∧
    accountBalance (execAll ops) u = ledgerBalance (execAll ops) u ∧
    ∀ (now : Int) (p : CreateTransactionParams),
      0 ≤ accountBalance (stepState (execAll ops) now p) u ∧
      accountBalance (stepState (execAll ops) now p) u =
        ledgerBalance (stepState (execAll ops) now p) u :=
  ⟨(inv_execAll ops).balNonneg u, (inv_execAll ops).balLedger u,
    fun now p =>
      ⟨(inv_step (execAll ops) now p (inv_execAll ops)).balNonneg u,
       (inv_step (execAll ops) now p (inv_execAll ops)).balLedger u⟩⟩

/-- C7: A committed write from a reachable state creates the user's
Account row with `version = 1` when none existed and otherwise bumps the
version by exactly one; its balance becomes the proposed new balance; and
in the committed state the version equals the number of that user's
Transaction rows (the commit order equals the version sequence). -/
theorem versionMonotonicity (ops : List (Int × CreateTransactionParams))
    (now : Int) (p : CreateTransactionParams) (r : TransactionResult) (s' : LedgerState)
    (h : createTransactionWithLock (execAll ops) now p = .ok (r, s')) :
    accountVersion s' p.userId = accountVersion (execAll ops) p.userId + 1 ∧
    (findAccount (execAll ops) p.userId = none → accountVersion s' p.userId = 1) ∧
    accountBalance s' p.userId =
      proposedBalance (accountBalance (execAll ops) p.userId) p.type p.amount ∧
    accountVersion s' p.userId =
      ((s'.transactions.filter fun t => t.userId == p.userId).length : Int) := by
  obtain ⟨idem1, nb, idem2, hc, hb, hf, hr, hs'⟩ :=
    createTransactionWithLock_ok_elim (execAll ops) now p r s' h
  obtain ⟨hnb0, hnbeq⟩ := calculateNewBalance_ok_elim _ _ _ _ hb
  rw [readCurrentAccount_fst] at hnbeq
  have hver : accountVersion s' p.userId = accountVersion (execAll ops) p.userId + 1 := by
    rw [hs']
    simp only [accountVersion]
    rw [readCurrentAccount_snd, versionOf_processAccount_self]
  refine ⟨hver, ?_, ?_, ?_⟩
  · intro habsent
    rw [hver]
    simp only [accountVersion, versionOf]
    rw [show (execAll ops).accounts.find? (fun a => a.userId == p.userId) = none from habsent]
    simp
  · rw [hs']
    simp only [accountBalance]
    rw [balanceOf_processAccount_self, hnbeq]
  · have hinv : Inv s' := by
      rw [← stepState_of_ok (execAll ops) now p r s' h, ← execAll_snoc]
      exact inv_execAll (ops ++ [(now, p)])
    exact hinv.verCount p.userId

/-- C7 witness: concrete first and second writes for one user. -/
theorem versionMonotonicityWitness :
    createTransactionWithLock (execAll []) 0
        ⟨"alice", TransactionType.CREDIT, 5, none⟩ =
      .ok (⟨0, "alice", TransactionType.CREDIT, 5⟩,
        ⟨[⟨0, "alice", TransactionType.CREDIT, 5, none⟩], [⟨"alice", 5, 1⟩], [], 1⟩) ∧
    accountVersion (⟨[⟨0, "alice", TransactionType.CREDIT, 5, none⟩],
        [⟨"alice", 5, 1⟩], [], 1⟩ : LedgerState) "alice" =
      accountVersion (execAll []) "alice" + 1 := by
  have h : createTransactionWithLock (execAll []) 0
        ⟨"alice", TransactionType.CREDIT, 5, none⟩ =
      .ok (⟨0, "alice", TransactionType.CREDIT, 5⟩,
        ⟨[⟨0, "alice", TransactionType.CREDIT, 5, none⟩], [⟨"alice", 5, 1⟩], [], 1⟩) := by
    decide
  exact ⟨h, (versionMonotonicity [] 0 ⟨"alice", TransactionType.CREDIT, 5, none⟩ _ _ h).1⟩

/-- C10: In every reachable state, `getBalance` returns the snapshot's
balance when a snapshot row exists and the log aggregate otherwise, both
of which equal `sum(CREDIT) - sum(DEBIT)` over the user's Transaction
rows (0 for a brand-new user with no rows). -/
theorem balanceReadPaths (ops : List (Int × CreateTransactionParams)) (u : String) :
    getBalance (execAll ops) u = ledgerBalance (execAll ops) u ∧
    (∀ a, findAccount (execAll ops) u = some a →
      getBalance (execAll ops) u = a.balance) ∧
    (findAccount (execAll ops) u = none →
      getBalance (execAll ops) u =
        creditsOf (execAll ops).transactions u - debitsOf (execAll ops).transactions u) ∧
    ((execAll ops).transactions.filter (fun t => t.userId == u) = [] →
      getBalance (execAll ops) u = 0) := by
  have hpaths : getBalance (execAll ops) u = ledgerBalance (execAll ops) u := by
    unfold getBalance ledgerBalance
    cases hfind : findAccount (execAll ops) u with
    | some a =>
      have hbal := (inv_execAll ops).balLedger u
      simp only [accountBalance, balanceOf, ledgerBalance] at hbal
      rw [← hbal]
      unfold findAccount at hfind
      rw [hfind]
    | none => rfl
  refine ⟨hpaths, ?_, ?_, ?_⟩
  · intro a ha
    unfold getBalance
    rw [ha]
  · intro ha
    unfold getBalance
    rw [ha]
  · intro hempty
    rw [hpaths]
    unfold ledgerBalance
    have hnone : ∀ t ∈ (execAll ops).transactions, ¬ (t.userId == u) = true :=
      List.filter_eq_nil_iff.mp hempty
    have hcz : creditsOf (execAll ops).transactions u = 0 := by
      unfold creditsOf
      rw [List.filter_eq_nil_iff.mpr ?_]
      · rfl
      · intro t ht hconj
        exact hnone t ht (Bool.and_elim_left hconj)
    have hdz : debitsOf (execAll ops).transactions u = 0 := by
      unfold debitsOf
      rw [List.filter_eq_nil_iff.mpr ?_]
      · rfl
      · intro t ht hconj
        exact hnone t ht (Bool.and_elim_left hconj)
    rw [hcz, hdz]
    simp

/-- C10 witness: one committed credit, then both read paths agree. -/
theorem balanceReadPathsWitness :
    findAccount (execAll [(0, ⟨"alice", TransactionType.CREDIT, 7, none⟩)]) "alice" =
      some ⟨"alice", 7, 1⟩ ∧
    getBalance (execAll [(0, ⟨"alice", TransactionType.CREDIT, 7, none⟩)]) "alice" =
      ledgerBalance (execAll [(0, ⟨"alice", TransactionType.CREDIT, 7, none⟩)]) "alice" ∧
    getBalance (execAll [(0, ⟨"alice", TransactionType.CREDIT, 7, none⟩)]) "alice" = 7 := by
  have hfind : findAccount (execAll [(0, ⟨"alice", TransactionType.CREDIT, 7, none⟩)])
      "alice" = some ⟨"alice", 7, 1⟩ := by decide
  refine ⟨hfind, (balanceReadPaths [(0, ⟨"alice", TransactionType.CREDIT, 7, none⟩)]
    "alice").1, ?_⟩
  have := (balanceReadPaths [(0, ⟨"alice", TransactionType.CREDIT, 7, none⟩)]
    "alice").2.1 ⟨"alice", 7, 1⟩ hfind
  rw [this]

end Ledger

namespace Ledger

/-- C2 (counterexample): with a non-expired `__PENDING__` record occupying
the key, the claim says the probe proceeds by inserting a fresh
reservation, but `checkIdempotency` aborts with `IDEMPOTENCY_DUPLICATE`
carrying the unparseable sentinel as the cached response. -/
theorem pendingReservationBlocksKey :
    checkIdempotency [(⟨"k", .pending, 100⟩ : IdemRow)] 0 (some "k") =
        .error (.idempotencyDuplicate .pending) ∧
    parseStored .pending = none := by
  exact ⟨by decide, rfl⟩

/-- C2 (amended): `checkIdempotency` with a key aborts with
`IdempotencyDuplicate` carrying the stored response whenever a record for
the key exists with `expiresAt > now` — regardless of whether that
response is `__PENDING__`; with no record it inserts a `__PENDING__` row
expiring in 90 days and proceeds; with an expired record the insert hits
the unique key constraint and the transaction aborts with that error. -/
theorem checkIdempotencyBehavior (idem : List IdemRow) (now : Int) (k : String) :
    (findIdem idem k = none →
      checkIdempotency idem now (some k) =
        .ok (idem ++ [(⟨k, .pending, now + ninetyDaysMs⟩ : IdemRow)])) ∧
    (∀ rec, findIdem idem k = some rec → now < rec.expiresAt →
      checkIdempotency idem now (some k) =
        .error (.idempotencyDuplicate rec.response)) ∧
    (∀ rec, findIdem idem k = some rec → rec.expiresAt ≤ now →
      checkIdempotency idem now (some k) = .error .uniqueKeyViolation) :=
  ⟨fun h => checkIdempotency_fresh idem now k h,
   fun rec h1 h2 => checkIdempotency_live idem now k rec h1 h2,
   fun rec h1 h2 => checkIdempotency_expired idem now k rec h1 h2⟩

/-- C2 witness: the three branches at concrete inputs. -/
theorem checkIdempotencyBehaviorWitness :
    checkIdempotency ([] : List IdemRow) 5 (some "a") =
      .ok [(⟨"a", .pending, 5 + ninetyDaysMs⟩ : IdemRow)] ∧
    checkIdempotency [(⟨"k", .envelope ⟨3, "alice", 9, .CREDIT⟩, 100⟩ : IdemRow)] 0
        (some "k") =
      .error (.idempotencyDuplicate (.envelope ⟨3, "alice", 9, .CREDIT⟩)) ∧
    checkIdempotency [(⟨"k", .pending, 100⟩ : IdemRow)] 200 (some "k") =
      .error .uniqueKeyViolation := by
  refine ⟨?_, ?_, ?_⟩
  · have := (checkIdempotencyBehavior ([] : List IdemRow) 5 "a").1 (by decide)
    simpa using this
  · exact (checkIdempotencyBehavior
      [(⟨"k", .envelope ⟨3, "alice", 9, .CREDIT⟩, 100⟩ : IdemRow)] 0 "k").2.1
      ⟨"k", .envelope ⟨3, "alice", 9, .CREDIT⟩, 100⟩ (by decide) (by decide)
  · exact (checkIdempotencyBehavior [(⟨"k", .pending, 100⟩ : IdemRow)] 200 "k").2.2
      ⟨"k", .pending, 100⟩ (by decide) (by decide)

/-- C4: A DEBIT whose amount exceeds the current snapshot balance, with a
fresh (or absent) idempotency key, aborts the DB transaction with
`InsufficientBalance`: no Transaction row is appended and the snapshot is
unchanged, and the service surfaces a 400 outcome whose details carry the
current balance, the requested amount, and their difference as shortage. -/
theorem insufficientBalanceAborts (s : LedgerState) (now : Int)
    (p : CreateTransactionParams)
    (hdeb : p.type = TransactionType.DEBIT)
    (hgt : accountBalance s p.userId < p.amount)
    (hkey : ∀ k, p.idempotencyKey = some k → findIdem s.idemKeys k = none) :
    createTransactionWithLock s now p = .error .insufficientBalance ∧
    stepState s now p = s ∧
    (0 < p.amount →
      serviceCreateTransaction s now ⟨p.amount, p.type⟩ p.userId p.idempotencyKey =
        (.insufficientBalance p.userId (getBalance s p.userId) p.amount
          (p.amount - getBalance s p.userId), s) ∧
      httpStatus (serviceCreateTransaction s now ⟨p.amount, p.type⟩ p.userId
        p.idempotencyKey).1 = 400) := by
  obtain ⟨u0, ty0, amt0, key0⟩ := p
  simp only at hdeb hgt hkey ⊢
  subst hdeb
  have hc : ∃ idem1, checkIdempotency s.idemKeys now key0 = .ok idem1 := by
    cases key0 with
    | none => exact ⟨s.idemKeys, rfl⟩
    | some k =>
      exact ⟨s.idemKeys ++ [(⟨k, .pending, now + ninetyDaysMs⟩ : IdemRow)],
        checkIdempotency_fresh s.idemKeys now k (hkey k rfl)⟩
  obtain ⟨idem1, hc⟩ := hc
  have hneg : proposedBalance (balanceOf s.accounts u0) TransactionType.DEBIT amt0 < 0 := by
    simp only [proposedBalance]
    have : accountBalance s u0 = balanceOf s.accounts u0 := rfl
    omega
  have hcalc : calculateNewBalance (readCurrentAccount s.accounts u0).1
      TransactionType.DEBIT amt0 = .error .insufficientBalance := by
    rw [readCurrentAccount_fst]
    exact calculateNewBalance_neg _ _ _ hneg
  have hlock : createTransactionWithLock s now
      ⟨u0, TransactionType.DEBIT, amt0, key0⟩ = .error .insufficientBalance := by
    simp only [createTransactionWithLock, hc, hcalc]
  refine ⟨hlock, stepState_of_error s now _ _ hlock, ?_⟩
  intro hamt
  have hserv : serviceCreateTransaction s now ⟨amt0, TransactionType.DEBIT⟩ u0 key0 =
      (.insufficientBalance u0 (getBalance s u0) amt0 (amt0 - getBalance s u0), s) := by
    have hnle : ¬ amt0 ≤ 0 := not_le.mpr hamt
    simp only [serviceCreateTransaction, hnle, if_false, hlock]
  exact ⟨hserv, by rw [hserv]; rfl⟩

/-- C4 witness: a fresh user debited by 1. -/
theorem insufficientBalanceAbortsWitness :
    accountBalance initialState "bob" < 1 ∧
    createTransactionWithLock initialState 0
        ⟨"bob", TransactionType.DEBIT, 1, none⟩ = .error .insufficientBalance ∧
    serviceCreateTransaction initialState 0 ⟨1, TransactionType.DEBIT⟩ "bob" none =
      (.insufficientBalance "bob" 0 1 1, initialState) := by
  have hmain := insufficientBalanceAborts initialState 0
    ⟨"bob", TransactionType.DEBIT, 1, none⟩ rfl (by decide)
    (fun k hk => by exact absurd hk (by simp))
  refine ⟨by decide, hmain.1, ?_⟩
  have := (hmain.2.2 (by decide)).1
  simpa using this

end Ledger

namespace Ledger

/-- C5: In every reachable state holding a non-expired finalized record
for key `k`, retrying a positive-amount write with that key returns the
cached envelope with HTTP 200 and leaves the database unchanged (no fresh
Transaction row), and exactly one committed Transaction carries the key —
the one the cached envelope describes. -/
theorem idempotentReplay (ops : List (Int × CreateTransactionParams)) (now : Int)
    (dto : CreateTransactionDto) (u k : String) (rec : IdemRow) (e : ResponseEnvelope)
    (hamt : 0 < dto.amount)
    (hrec : findIdem (execAll ops).idemKeys k = some rec)
    (hlive : now < rec.expiresAt)
    (hresp : rec.response = .envelope e) :
    serviceCreateTransaction (execAll ops) now dto u (some k) =
      (.success e, execAll ops) ∧
    httpStatus (serviceCreateTransaction (execAll ops) now dto u (some k)).1 = 200 ∧
    ∃ t : TxRow,
      (execAll ops).transactions.filter (fun t => t.idempotencyKey == some k) = [t] ∧
      e.id = t.id ∧ e.user_id = t.userId ∧ e.amount = t.amount ∧ e.type = t.type := by
  have hserv := serviceReplayCached (execAll ops) now dto u k rec e hamt hrec hlive hresp
  refine ⟨hserv, by rw [hserv]; rfl, ?_⟩
  obtain ⟨t, htmem, htkey, hid, huid, hamt', hty⟩ :=
    (inv_execAll ops).recTx k rec e hrec hresp
  have hmemf : t ∈ (execAll ops).transactions.filter (fun t => t.idempotencyKey == some k) :=
    List.mem_filter.mpr ⟨htmem, by simp [htkey]⟩
  have hlen := (inv_execAll ops).keyOnce k
  have hlen1 : ((execAll ops).transactions.filter
      (fun t => t.idempotencyKey == some k)).length = 1 := by
    have hpos : 0 < ((execAll ops).transactions.filter
        (fun t => t.idempotencyKey == some k)).length :=
      List.length_pos.mpr (List.ne_nil_of_mem hmemf)
    omega
  obtain ⟨t', hfilter⟩ := List.length_eq_one.mp hlen1
  have hteq : t = t' := by
    rw [hfilter] at hmemf
    simpa using hmemf
  subst hteq
  exact ⟨t, hfilter, hid, huid, hamt', hty⟩

/-- C5 witness: commit a keyed credit, then replay the same request. -/
theorem idempotentReplayWitness :
    findIdem (execAll [(0, ⟨"alice", TransactionType.CREDIT, 5, some "k1"⟩)]).idemKeys
        "k1" =
      some ⟨"k1", .envelope ⟨0, "alice", 5, TransactionType.CREDIT⟩, twentyFourHoursMs⟩ ∧
    serviceCreateTransaction
        (execAll [(0, ⟨"alice", TransactionType.CREDIT, 5, some "k1"⟩)]) 1
        ⟨5, TransactionType.CREDIT⟩ "alice" (some "k1") =
      (.success ⟨0, "alice", 5, TransactionType.CREDIT⟩,
        execAll [(0, ⟨"alice", TransactionType.CREDIT, 5, some "k1"⟩)]) := by
  have hrec : findIdem
      (execAll [(0, ⟨"alice", TransactionType.CREDIT, 5, some "k1"⟩)]).idemKeys "k1" =
      some ⟨"k1", .envelope ⟨0, "alice", 5, TransactionType.CREDIT⟩,
        twentyFourHoursMs⟩ := by decide
  exact ⟨hrec, (idempotentReplay [(0, ⟨"alice", TransactionType.CREDIT, 5, some "k1"⟩)]
    1 ⟨5, TransactionType.CREDIT⟩ "alice" "k1"
    ⟨"k1", .envelope ⟨0, "alice", 5, TransactionType.CREDIT⟩, twentyFourHoursMs⟩
    ⟨0, "alice", 5, TransactionType.CREDIT⟩ (by decide) hrec (by decide) rfl).1⟩

/-- C3 (counterexample): a loser whose `__PENDING__` insert raises the
unique key violation (Prisma P2002) is not retried by the outer loop —
the error propagates after the first attempt with no backoff sleeps,
because the retry classifier accepts only serialization failures. -/
theorem uniqueViolationNotRetried :
    isSerializationFailure (txErrorToJs .uniqueKeyViolation) = false ∧
    createTransactionWithRetry
        (fun _ => (.error (txErrorToJs .uniqueKeyViolation) :
          Except JsError TransactionResult))
        (fun _ => 0) defaultMaxAttempts =
      (.error (txErrorToJs .uniqueKeyViolation), []) := by
  exact ⟨by decide, by decide⟩

/-- C3 (amended): the racing loser's unique-constraint abort (P2002) is
terminal — the outer loop rethrows any non-serialization error from the
first attempt with no retry; only when the database surfaces the race as
a serialization failure is the attempt repeated, and an attempt that runs
once the winner has finalized observes the completed record and
short-circuits to the duplicate path, the service returning the winner's
cached response with the state unchanged. -/
theorem racingLoserResolution :
    (∀ {α : Type} (run : Nat → Except JsError α) (rand : Nat → ℚ) (e : JsError),
      run 1 = .error e → isSerializationFailure e = false →
      createTransactionWithRetry run rand defaultMaxAttempts = (.error e, [])) ∧
    isSerializationFailure (txErrorToJs .uniqueKeyViolation) = false ∧
    (∀ (s : LedgerState) (now : Int) (dto : CreateTransactionDto) (u k : String)
        (rec : IdemRow) (e : ResponseEnvelope),
      0 < dto.amount → findIdem s.idemKeys k = some rec → now < rec.expiresAt →
      rec.response = .envelope e →
      createTransactionWithLock s now ⟨u, dto.type, dto.amount, some k⟩ =
        .error (.idempotencyDuplicate rec.response) ∧
      serviceCreateTransaction s now dto u (some k) = (.success e, s)) := by
  refine ⟨?_, by decide, ?_⟩
  · intro α run rand e h1 hns
    have h10 : defaultMaxAttempts = 9 + 1 := rfl
    rw [h10]
    exact retry_terminal run rand 9 e h1 hns
  · intro s now dto u k rec e hamt hrec hlive hresp
    have hc : checkIdempotency s.idemKeys now (some k) =
        .error (.idempotencyDuplicate rec.response) :=
      checkIdempotency_live s.idemKeys now k rec hrec hlive
    refine ⟨?_, serviceReplayCached s now dto u k rec e hamt hrec hlive hresp⟩
    simp only [createTransactionWithLock, hc]

/-- C3 witness: concrete instantiations of the quantified conjuncts. -/
theorem racingLoserResolutionWitness :
    createTransactionWithRetry
        (fun _ => (.error ⟨some "P2002", "Unique constraint failed"⟩ :
          Except JsError TransactionResult)) (fun _ => 0) defaultMaxAttempts =
      (.error ⟨some "P2002", "Unique constraint failed"⟩, []) ∧
    serviceCreateTransaction
        ⟨[⟨0, "alice", TransactionType.CREDIT, 5, some "k1"⟩], [⟨"alice", 5, 1⟩],
          [⟨"k1", .envelope ⟨0, "alice", 5, TransactionType.CREDIT⟩, 1000⟩], 1⟩ 1
        ⟨5, TransactionType.CREDIT⟩ "bob" (some "k1") =
      (.success ⟨0, "alice", 5, TransactionType.CREDIT⟩,
        ⟨[⟨0, "alice", TransactionType.CREDIT, 5, some "k1"⟩], [⟨"alice", 5, 1⟩],
          [⟨"k1", .envelope ⟨0, "alice", 5, TransactionType.CREDIT⟩, 1000⟩], 1⟩) := by
  refine ⟨?_, ?_⟩
  · exact (racingLoserResolution).1
      (fun _ => (.error ⟨some "P2002", "Unique constraint failed"⟩ :
        Except JsError TransactionResult)) (fun _ => 0)
      ⟨some "P2002", "Unique constraint failed"⟩ rfl (by decide)
  · exact ((racingLoserResolution).2.2
      ⟨[⟨0, "alice", TransactionType.CREDIT, 5, some "k1"⟩], [⟨"alice", 5, 1⟩],
        [⟨"k1", .envelope ⟨0, "alice", 5, TransactionType.CREDIT⟩, 1000⟩], 1⟩ 1
      ⟨5, TransactionType.CREDIT⟩ "bob" "k1"
      ⟨"k1", .envelope ⟨0, "alice", 5, TransactionType.CREDIT⟩, 1000⟩
      ⟨0, "alice", 5, TransactionType.CREDIT⟩
      (by decide) (by decide) (by decide) rfl).2

end Ledger

namespace Ledger

/-- C6: the outer loop retries only database serialization failures
(code P2034 or a message containing the 40001 text), for at most 10
attempts in total, sleeping `2^(n-1) * 100` ms plus a jitter in `[0, 50)`
ms after failed attempt `n`; `InsufficientBalance` and
`IdempotencyDuplicate` are never classified as retryable and propagate on
first occurrence, and an invalid amount is rejected by the service before
the loop ever runs. -/
theorem retryDiscipline :
    (∀ {α : Type} (run : Nat → Except JsError α) (rand : Nat → ℚ) (e : JsError),
      run 1 = .error e → isSerializationFailure e = false →
      createTransactionWithRetry run rand defaultMaxAttempts = (.error e, [])) ∧
    isSerializationFailure (txErrorToJs .insufficientBalance) = false ∧
    (∀ c, isSerializationFailure (txErrorToJs (.idempotencyDuplicate c)) = false) ∧
    (∀ (s : LedgerState) (now : Int) (dto : CreateTransactionDto) (u : String)
        (key : Option String), dto.amount ≤ 0 →
      serviceCreateTransaction s now dto u key = (.invalidAmount dto.amount, s)) ∧
    (∀ {α : Type} (es : Nat → JsError) (rand : Nat → ℚ),
      (∀ n, isSerializationFailure (es n) = true) →
      createTransactionWithRetry (fun n => (.error (es n) : Except JsError α)) rand
          defaultMaxAttempts =
        (.error (es 10),
          (List.range 9).map (fun i => computeBackoffMs (i + 1) (rand (i + 1))))) ∧
    (∀ (n : Nat) (r : ℚ), 0 ≤ r → r < 1 →
      computeBackoffMs n r = 2 ^ (n - 1) * 100 + r * 50 ∧
      2 ^ (n - 1) * 100 ≤ computeBackoffMs n r ∧
      computeBackoffMs n r < 2 ^ (n - 1) * 100 + 50) := by
  refine ⟨?_, by decide, ?_, ?_, ?_, ?_⟩
  · intro α run rand e h1 hns
    have h10 : defaultMaxAttempts = 9 + 1 := rfl
    rw [h10]
    exact retry_terminal run rand 9 e h1 hns
  · intro c
    show isSerializationFailure ⟨none, "IDEMPOTENCY_DUPLICATE"⟩ = false
    decide
  · intro s now dto u key hle
    simp [serviceCreateTransaction, hle]
  · intro α es rand hser
    exact retry_all_ser es rand hser
  · intro n r h0 h1
    refine ⟨rfl, ?_, ?_⟩
    · unfold computeBackoffMs
      nlinarith
    · unfold computeBackoffMs
      nlinarith

/-- C6 witness: the classifier and loop at concrete inputs. -/
theorem retryDisciplineWitness :
    createTransactionWithRetry
        (fun _ => (.error (txErrorToJs .insufficientBalance) :
          Except JsError TransactionResult)) (fun _ => 0) defaultMaxAttempts =
      (.error (txErrorToJs .insufficientBalance), []) ∧
    serviceCreateTransaction initialState 0 ⟨0, TransactionType.CREDIT⟩ "u" none =
      (.invalidAmount 0, initialState) ∧
    createTransactionWithRetry
        (fun _ => (.error ⟨some "P2034", "conflict"⟩ : Except JsError TransactionResult))
        (fun _ => 0) defaultMaxAttempts =
      (.error ⟨some "P2034", "conflict"⟩,
        (List.range 9).map (fun i => computeBackoffMs (i + 1) 0)) ∧
    computeBackoffMs 3 (1 / 2) = 2 ^ 2 * 100 + (1 / 2) * 50 := by
  refine ⟨?_, ?_, ?_, ?_⟩
  · exact retryDiscipline.1
      (fun _ => (.error (txErrorToJs .insufficientBalance) :
        Except JsError TransactionResult)) (fun _ => 0)
      (txErrorToJs .insufficientBalance) rfl (by decide)
  · exact retryDiscipline.2.2.2.1 initialState 0 ⟨0, TransactionType.CREDIT⟩ "u" none
      (by decide)
  · exact retryDiscipline.2.2.2.2.1 (fun _ => ⟨some "P2034", "conflict"⟩) (fun _ => 0)
      (fun n => by
        show isSerializationFailure ⟨some "P2034", "conflict"⟩ = true
        decide)
  · exact (retryDiscipline.2.2.2.2.2 3 (1 / 2) (by norm_num) (by norm_num)).1

end Ledger

namespace AuthModel

/-- C8: the guarded endpoint's principal is exactly the `user_id` of a
`{valid: true, user_id}` answer from Identity (the handler runs with that
principal); a `valid: false` answer, a failed or undecodable validation
call, or a missing bearer token each yield `Unauthorized` with the state
untouched; and the guard's verdict is the same function of Identity's
answer whatever the token string contains. -/
theorem authMediation :
    (∀ (t : String) (u : Option String) {σ α : Type}
        (handler : Principal → σ → α × σ) (s : σ),
      guardedEndpoint (some t) (.response true u) handler s =
        (.ok (handler ⟨u⟩ s).1, (handler ⟨u⟩ s).2)) ∧
    (∀ (t : String) (u : Option String) {σ α : Type}
        (handler : Principal → σ → α × σ) (s : σ),
      guardedEndpoint (some t) (.response false u) handler s =
        (.error .unauthorized, s)) ∧
    (∀ (t : String) {σ α : Type} (handler : Principal → σ → α × σ) (s : σ),
      guardedEndpoint (some t) .failure handler s = (.error .unauthorized, s)) ∧
    (∀ (outcome : RemoteOutcome) {σ α : Type}
        (handler : Principal → σ → α × σ) (s : σ),
      guardedEndpoint none outcome handler s = (.error .unauthorized, s)) ∧
    (∀ (t t' : String) (outcome : RemoteOutcome),
      jwtStrategyValidate (some t) outcome = jwtStrategyValidate (some t') outcome) := by
  refine ⟨?_, ?_, ?_, ?_, ?_⟩
  · intro t u σ α handler s; rfl
  · intro t u σ α handler s; rfl
  · intro t σ α handler s; rfl
  · intro outcome σ α handler s; rfl
  · intro t t' outcome; rfl

end AuthModel

namespace UsersModel

/-- C9: the Identity service's item operations perform no ownership
check — with requester `"attacker"` different from target `"u1"`,
`findOne` returns the user view, `update` applies the change and `remove`
deletes the row, none of them failing with Forbidden; only a missing
target fails, with `NotFound`. -/
theorem ownershipCheckMissing :
    usersControllerFindOne [⟨"u1", "a@x.com", "Ann", "Ames", "hash"⟩] "u1" "attacker" =
      .ok ⟨"u1", "a@x.com", "Ann", "Ames"⟩ ∧
    usersControllerUpdate [⟨"u1", "a@x.com", "Ann", "Ames", "hash"⟩] "u1"
        ⟨some "Bea", none⟩ "attacker" =
      .ok (⟨"u1", "a@x.com", "Bea", "Ames"⟩,
        [⟨"u1", "a@x.com", "Bea", "Ames", "hash"⟩]) ∧
    usersControllerRemove [⟨"u1", "a@x.com", "Ann", "Ames", "hash"⟩] "u1" "attacker" =
      .ok [] ∧
    usersControllerFindOne [⟨"u1", "a@x.com", "Ann", "Ames", "hash"⟩] "missing"
      "attacker" = .error .notFound := by
  exact ⟨by decide, by decide, by decide, by decide⟩

end UsersModel
